import Mathlib

set_option maxRecDepth 100000

/-!
Shallow embedding of the `mcp-universal-crawler` repository
(`src/crawler.py`, `src/ranker.py`) and proofs of the specification
claims about it.

External collaborators (the HTTP client, the HTML parser, the image
codec, the `tldextract` component and the search provider) are passed
in as explicit oracle functions, exactly at the call boundaries the
source uses.  Pure library helpers the source relies on
(`hashlib.md5`, `urllib.parse.urlparse`, `os.path.splitext`,
`str.lower`, `str.strip`, substring containment) are translated to
executable Lean functions below.
-/

/-! ### 32-bit arithmetic helpers (machine integers as `Nat` mod 2^32) -/

/-- Addition modulo 2^32. -/
def add32 (a b : Nat) : Nat := (a + b) % 4294967296

/-- Bitwise complement within 32 bits. -/
def not32 (a : Nat) : Nat := a ^^^ 4294967295

/-- Left-rotation of a 32-bit word by `n` places (`0 < n < 32`). -/
def rotl32 (x n : Nat) : Nat :=
  ((x <<< n) % 4294967296) ||| ((x % 4294967296) >>> (32 - n))

/-! ### MD5 (RFC 1321), modelling Python `hashlib.md5(...).hexdigest()` -/

/-- The 64 round constants `T[i] = floor(abs(sin(i+1)) * 2^32)` of MD5. -/
def md5K : List Nat :=
  [0xd76aa478, 0xe8c7b756, 0x242070db, 0xc1bdceee,
   0xf57c0faf, 0x4787c62a, 0xa8304613, 0xfd469501,
   0x698098d8, 0x8b44f7af, 0xffff5bb1, 0x895cd7be,
   0x6b901122, 0xfd987193, 0xa679438e, 0x49b40821,
   0xf61e2562, 0xc040b340, 0x265e5a51, 0xe9b6c7aa,
   0xd62f105d, 0x02441453, 0xd8a1e681, 0xe7d3fbc8,
   0x21e1cde6, 0xc33707d6, 0xf4d50d87, 0x455a14ed,
   0xa9e3e905, 0xfcefa3f8, 0x676f02d9, 0x8d2a4c8a,
   0xfffa3942, 0x8771f681, 0x6d9d6122, 0xfde5380c,
   0xa4beea44, 0x4bdecfa9, 0xf6bb4b60, 0xbebfbc70,
   0x289b7ec6, 0xeaa127fa, 0xd4ef3085, 0x04881d05,
   0xd9d4d039, 0xe6db99e5, 0x1fa27cf8, 0xc4ac5665,
   0xf4292244, 0x432aff97, 0xab9423a7, 0xfc93a039,
   0x655b59c3, 0x8f0ccc92, 0xffeff47d, 0x85845dd1,
   0x6fa87e4f, 0xfe2ce6e0, 0xa3014314, 0x4e0811a1,
   0xf7537e82, 0xbd3af235, 0x2ad7d2bb, 0xeb86d391]

/-- The per-round left-rotation amounts of MD5. -/
def md5S : List Nat :=
  [7, 12, 17, 22, 7, 12, 17, 22, 7, 12, 17, 22, 7, 12, 17, 22,
   5, 9, 14, 20, 5, 9, 14, 20, 5, 9, 14, 20, 5, 9, 14, 20,
   4, 11, 16, 23, 4, 11, 16, 23, 4, 11, 16, 23, 4, 11, 16, 23,
   6, 10, 15, 21, 6, 10, 15, 21, 6, 10, 15, 21, 6, 10, 15, 21]

/-- The nonlinear mixing function of round `i`. -/
def md5F (i b c d : Nat) : Nat :=
  if i < 16 then (b &&& c) ||| (not32 b &&& d)
  else if i < 32 then (d &&& b) ||| (not32 d &&& c)
  else if i < 48 then b ^^^ c ^^^ d
  else c ^^^ (b ||| not32 d)

/-- The message-word index used in round `i`. -/
def md5G (i : Nat) : Nat :=
  if i < 16 then i
  else if i < 32 then (5 * i + 1) % 16
  else if i < 48 then (3 * i + 5) % 16
  else (7 * i) % 16

/-- Running state of the MD5 compression function (four 32-bit words). -/
structure MD5State where
  a : Nat
  b : Nat
  c : Nat
  d : Nat
deriving Repr, DecidableEq

/-- One of the 64 rounds of the MD5 compression function. -/
def md5Step (M : List Nat) (st : MD5State) (i : Nat) : MD5State :=
  let f := add32 (add32 (add32 (md5F i st.b st.c st.d) st.a) (md5K.getD i 0))
      (M.getD (md5G i) 0)
  ⟨st.d, add32 st.b (rotl32 f (md5S.getD i 0)), st.b, st.c⟩

/-- Process one 64-byte chunk: decode 16 little-endian words, run the
64 rounds, add the result back into the state. -/
def md5Chunk (st : MD5State) (chunk : List Nat) : MD5State :=
  let M := (List.range 16).map (fun j =>
    chunk.getD (4 * j) 0 + 256 * chunk.getD (4 * j + 1) 0 +
    65536 * chunk.getD (4 * j + 2) 0 + 16777216 * chunk.getD (4 * j + 3) 0)
  let e := (List.range 64).foldl (md5Step M) st
  ⟨add32 st.a e.a, add32 st.b e.b, add32 st.c e.c, add32 st.d e.d⟩

/-- MD5 padding: a `0x80` byte, zeros up to 56 mod 64, then the bit
length as a 64-bit little-endian quantity. -/
def md5Pad (msg : List Nat) : List Nat :=
  let z := (119 - msg.length % 64) % 64
  msg ++ [128] ++ List.replicate z 0 ++
    (List.range 8).map (fun i => ((8 * msg.length) >>> (8 * i)) % 256)

/-- Run the compression function over `n` consecutive 64-byte chunks. -/
def md5Run : Nat → List Nat → MD5State → MD5State
  | 0, _, st => st
  | n + 1, l, st => md5Run n (l.drop 64) (md5Chunk st (l.take 64))

/-- The 16-byte MD5 digest of a byte sequence. -/
def md5Bytes (msg : List Nat) : List Nat :=
  let p := md5Pad msg
  let st := md5Run (p.length / 64) p ⟨0x67452301, 0xefcdab89, 0x98badcfe, 0x10325476⟩
  ((List.range 4).map (fun i => (st.a >>> (8 * i)) % 256)) ++
  ((List.range 4).map (fun i => (st.b >>> (8 * i)) % 256)) ++
  ((List.range 4).map (fun i => (st.c >>> (8 * i)) % 256)) ++
  ((List.range 4).map (fun i => (st.d >>> (8 * i)) % 256))

/-- Lower-case hex digit of a value below 16. -/
def hexDigit (n : Nat) : Char :=
  if n < 10 then Char.ofNat (48 + n) else Char.ofNat (87 + n)

/-- Two lower-case hex digits of one byte. -/
def byteHex (b : Nat) : List Char := [hexDigit (b / 16), hexDigit (b % 16)]

/-- UTF-8 encoding of a single character, modelling Python `str.encode()`. -/
def utf8Encode (c : Char) : List Nat :=
  let n := c.toNat
  if n < 128 then [n]
  else if n < 2048 then [192 + n / 64, 128 + n % 64]
  else if n < 65536 then [224 + n / 4096, 128 + (n / 64) % 64, 128 + n % 64]
  else [240 + n / 262144, 128 + (n / 4096) % 64, 128 + (n / 64) % 64, 128 + n % 64]

/-- UTF-8 bytes of a string. -/
def strBytes (s : String) : List Nat := (s.data.map utf8Encode).flatten

/-- `hashlib.md5(s.encode()).hexdigest()`: the lower-case 32-character
hex digest of a string. -/
def md5hexStr (s : String) : String := ⟨((md5Bytes (strBytes s)).map byteHex).flatten⟩

/-- `hashlib.md5(s.encode()).hexdigest()[:12]` — the content identifier
used by `download_image` (crawler.py line 76). -/
def md5hex12 (s : String) : String := ⟨(md5hexStr s).data.take 12⟩

/-! ### Python string helpers -/

/-- Hand-rolled prefix test on character lists. -/
def listPrefixOf : List Char → List Char → Bool
  | [], _ => true
  | _ :: _, [] => false
  | a :: as, b :: bs => a == b && listPrefixOf as bs

/-- Hand-rolled infix (contiguous substring) test on character lists. -/
def listInfixOf (pat : List Char) : List Char → Bool
  | [] => pat.isEmpty
  | c :: cs => listPrefixOf pat (c :: cs) || listInfixOf pat cs

/-- Python's `sub in s` substring containment. -/
def strContains (s sub : String) : Bool := listInfixOf sub.data s.data

/-- Python `str.lower()` (ASCII range, which is all the source ever
lowercases: URLs, extensions, keywords, domain labels). -/
def pyLower (s : String) : String := ⟨s.data.map Char.toLower⟩

/-- Python whitespace stripped by `str.strip()`. -/
def isPyWS (c : Char) : Bool :=
  c == ' ' || c == '\t' || c == '\n' || c == '\r' || c == '\x0b' || c == '\x0c'

/-- Python `str.strip()`. -/
def pyStrip (s : String) : String :=
  ⟨((s.data.dropWhile isPyWS).reverse.dropWhile isPyWS).reverse⟩

/-- Python truthiness of an optional string: `None` and `""` are falsy. -/
def pyTruthyStr : Option String → Bool
  | none => false
  | some s => s != ""

/-- Python `a or b` on optional strings, as used for the lazy-load
attribute fallback chain (crawler.py line 157). -/
def pyOrS (a b : Option String) : Option String := if pyTruthyStr a then a else b

/-! ### `urllib.parse.urlparse(...).path` and `os.path.splitext` -/

/-- Split a character list at the first occurrence of `c`; the second
component is `none` when `c` does not occur. -/
def splitFirst (c : Char) (l : List Char) : List Char × Option (List Char) :=
  match l.span (fun x => x != c) with
  | (pre, []) => (pre, none)
  | (pre, _ :: post) => (pre, some post)

/-- Characters allowed in a URL scheme. -/
def isSchemeChar (c : Char) : Bool :=
  c.isAlpha || c.isDigit || c == '+' || c == '-' || c == '.'

/-- Scheme extraction of `urllib.parse.urlsplit`: the part before the
first `:` when it is a well-formed scheme (lower-cased), plus the rest. -/
def splitScheme (l : List Char) : List Char × List Char :=
  match splitFirst ':' l with
  | (pre, some post) =>
    match pre with
    | [] => ([], l)
    | c0 :: _ =>
      if c0.isAlpha && pre.all isSchemeChar then (pre.map Char.toLower, post)
      else ([], l)
  | (_, none) => ([], l)

/-- Netloc extraction of `urllib.parse.urlsplit`: when the remainder
starts with `//`, the authority runs up to the next `/`, `?` or `#`. -/
def splitNetloc (l : List Char) : List Char × List Char :=
  match l with
  | '/' :: '/' :: rest =>
    let p := rest.span (fun c => c != '/' && c != '?' && c != '#')
    (p.1, p.2)
  | _ => ([], l)

/-- Parameter stripping of `urlparse` (`_splitparams`): a `;` in the
last path segment starts the params component, which `.path` excludes. -/
def splitParams (p : List Char) : List Char :=
  let lastSeg := (p.reverse.takeWhile (fun c => c != '/')).reverse
  if lastSeg.contains ';' then
    p.take (p.length - lastSeg.length) ++ lastSeg.takeWhile (fun c => c != ';')
  else p

/-- `urllib.parse.urlparse(url).path` for standard URLs: drop the
fragment, the scheme, the authority, the query and the params. -/
def urlPath (url : String) : String :=
  let noFrag := (splitFirst '#' url.data).1
  let afterScheme := (splitScheme noFrag).2
  let afterNetloc := (splitNetloc afterScheme).2
  ⟨splitParams (splitFirst '?' afterNetloc).1⟩

/-- The basename (part after the last `/`) of a path. -/
def basenameOf (p : List Char) : List Char :=
  (p.reverse.takeWhile (fun c => c != '/')).reverse

/-- `os.path.splitext(p)[1]`: the extension starts at the last dot of
the basename, provided some earlier basename character is not a dot
(so purely-leading-dot names have no extension). -/
def pathExt (p : List Char) : List Char :=
  let bn := basenameOf p
  match bn.reverse.span (fun c => c != '.') with
  | (_, []) => []
  | (revExt, _ :: revPre) =>
    if revPre.any (fun c => c != '.') then '.' :: revExt.reverse else []

/-- `os.path.splitext(urlparse(url).path)[1].lower()`, the lower-cased
extension of a URL's path, shared by `is_valid_image_url` (line 49) and
`download_image` (line 80). -/
def urlExtLower (url : String) : String := ⟨(pathExt (urlPath url).data).map Char.toLower⟩

/-- Models `urllib.parse.urljoin` for the cases the crawler meets:
empty reference keeps the base, an absolute reference wins, a
scheme-relative or root-relative reference reuses the base scheme
and/or authority, and any other reference replaces the last segment of
the base path.  (Dot-segment normalization is not modelled; no claim
depends on it.) -/
def urljoin (base url : String) : String :=
  if url = "" then base
  else if (splitScheme url.data).1 ≠ [] then url
  else
    let bNoFrag := (splitFirst '#' base.data).1
    let bScheme := (splitScheme bNoFrag).1
    let bAfterScheme := (splitScheme bNoFrag).2
    let schemePre : List Char := if bScheme = [] then [] else bScheme ++ [':']
    match url.data with
    | '/' :: '/' :: _ => ⟨schemePre ++ url.data⟩
    | '/' :: _ =>
      let bNetloc := (splitNetloc bAfterScheme).1
      let netPre : List Char :=
        match bAfterScheme with
        | '/' :: '/' :: _ => '/' :: '/' :: bNetloc
        | _ => []
      ⟨schemePre ++ netPre ++ url.data⟩
    | u =>
      let bNetloc := (splitNetloc bAfterScheme).1
      let bRest := (splitNetloc bAfterScheme).2
      let bPath := (splitFirst '?' bRest).1
      let netPre : List Char :=
        match bAfterScheme with
        | '/' :: '/' :: _ => '/' :: '/' :: bNetloc
        | _ => []
      let dir := (bPath.reverse.dropWhile (fun c => c != '/')).reverse
      let dir := if dir = [] then ['/'] else dir
      ⟨schemePre ++ netPre ++ dir ++ u⟩

/-! ### Data model of the crawler -/

/-- Result of `self.session.get(img_url, ...)` when no transport
exception occurs: HTTP status code and response body bytes. -/
structure FetchResult where
  status : Nat
  content : List Nat
deriving Repr, DecidableEq

/-- One HTML `img` element, as the HTML parser exposes it: the three
source attributes the crawler consults plus the `alt` attribute.
`none` models an absent attribute. -/
structure ImgTag where
  src : Option String := none
  dataSrc : Option String := none
  dataOriginal : Option String := none
  alt : Option String := none
deriving Repr, DecidableEq

/-- Result of fetching a page URL when no transport exception occurs:
HTTP status code and the `img` elements the parser would find. -/
structure PageFetch where
  status : Nat
  tags : List ImgTag
deriving Repr, DecidableEq

/-- The dictionary `download_image` returns (and `crawl` augments).
`none` in an optional field models the corresponding key being absent
from the Python dict: the `exists` branch (crawler.py lines 89-94)
builds a dict with only `status`, `path`, `url` and `filename`. -/
structure DownloadRecord where
  status : String
  path : String
  url : String
  filename : String
  referer : Option String := none
  resolution : Option String := none
  alt_text : Option String := none
deriving Repr, DecidableEq

/-- Outcome of one `download_image` call: the returned record (or
`none`), the filesystem contents afterwards, and how many network
requests for the image URL were attempted. -/
structure StoreResult where
  record : Option DownloadRecord
  fs : List String
  fetches : Nat
deriving Repr, DecidableEq

/-! ### `GenericImageCrawler.download_image` (crawler.py lines 67-126)

The filesystem is the list of file paths present; the network is an
oracle `net : String → Option FetchResult` (`none` models a transport
exception); the image codec is an oracle
`decode : List Nat → Option (Nat × Nat)` (`Image.open` + `verify`,
`none` models a decode/verify exception, otherwise width × height). -/

/-- Lines 79-82: extension inferred from the URL path, defaulting to
`.jpg` when absent or longer than 5 characters. -/
def inferredExt (url : String) : String :=
  let ext := urlExtLower url
  if ext = "" || ext.length > 5 then ".jpg" else ext

/-- Line 84: `f"img_{img_hash}{ext}"`. -/
def derivedFilename (url : String) : String :=
  "img_" ++ md5hex12 url ++ inferredExt url

/-- Line 85: `os.path.join(self.images_dir, filename)` (the images
directory does not end in a separator). -/
def derivedPath (images_dir url : String) : String :=
  images_dir ++ "/" ++ derivedFilename url

/-- `download_image(img_url, referer)`, crawler.py lines 67-126. -/
def download_image (net : String → Option FetchResult)
    (decode : List Nat → Option (Nat × Nat)) (images_dir : String)
    (fs : List String) (img_url referer : String) : StoreResult :=
  let filename := derivedFilename img_url
  let filepath := derivedPath images_dir img_url
  if fs.contains filepath then
    { record := some { status := "exists", path := filepath, url := img_url,
                       filename := filename },
      fs := fs, fetches := 0 }
  else
    match net img_url with
    | none => { record := none, fs := fs, fetches := 1 }
    | some r =>
      if r.status = 200 then
        if r.content.length < 1024 then { record := none, fs := fs, fetches := 1 }
        else
          match decode r.content with
          | none => { record := none, fs := fs, fetches := 1 }
          | some (w, h) =>
            { record := some { status := "downloaded", path := filepath,
                               url := img_url, referer := some referer,
                               resolution := some (toString w ++ "x" ++ toString h),
                               filename := filename },
              fs := filepath :: fs, fetches := 1 }
      else { record := none, fs := fs, fetches := 1 }

/-! ### `GenericImageCrawler.crawl` (crawler.py lines 128-192) -/

/-- `is_valid_image_url` (crawler.py lines 45-53). -/
def is_valid_image_url (url : String) : Bool :=
  let ext := urlExtLower url
  if ext = "" then true
  else [".jpg", ".jpeg", ".png", ".webp", ".bmp", ".gif"].contains ext

/-- Lines 156-163: resolve the effective source attribute (falling
back through the lazy-load attributes), skip the element when it is
absent or empty, join it against the page URL and trim the alt text. -/
def candidateOf (start_url : String) (img : ImgTag) : Option (String × String) :=
  let raw_src := pyOrS (pyOrS img.src img.dataSrc) img.dataOriginal
  if pyTruthyStr raw_src then
    some (urljoin start_url (raw_src.getD ""), pyStrip (img.alt.getD ""))
  else none

/-- Lines 167-172: the keyword stage of the filter block.  A candidate
survives when no (truthy) keyword is configured or the lower-cased
keyword occurs in the lower-cased URL or alt text. -/
def passes_keyword (keyword_filter : Option String) (full_url alt_text : String) : Bool :=
  match keyword_filter with
  | some kw =>
    if kw != "" then
      strContains (pyLower full_url) (pyLower kw) ||
      strContains (pyLower alt_text) (pyLower kw)
    else true
  | none => true

/-- The whole filter block of `crawl` (lines 165-180): keyword stage,
extension stage, icon/logo heuristic. -/
def passesFilters (keyword_filter : Option String) (full_url alt_text : String) : Bool :=
  passes_keyword keyword_filter full_url alt_text &&
  is_valid_image_url full_url &&
  !(strContains (pyLower full_url) "logo" || strContains (pyLower full_url) "icon")

/-- Accumulator of the `for img in img_tags` loop: the `results` list,
the `count` of successful acquisitions, the filesystem, and counters of
image network requests and `time.sleep(0.3)` calls performed. -/
structure CrawlState where
  results : List DownloadRecord
  count : Nat
  fs : List String
  fetches : Nat
  sleeps : Nat
deriving Repr, DecidableEq

/-- The `for img in img_tags` loop of `crawl` (lines 151-191). -/
def crawlLoop (net : String → Option FetchResult)
    (decode : List Nat → Option (Nat × Nat)) (images_dir start_url : String)
    (max_images : Int) (keyword_filter : Option String) :
    List ImgTag → CrawlState → CrawlState
  | [], s => s
  | img :: rest, s =>
    if (s.count : Int) ≥ max_images then s
    else
      match candidateOf start_url img with
      | none => crawlLoop net decode images_dir start_url max_images keyword_filter rest s
      | some (full_url, alt_text) =>
        if passesFilters keyword_filter full_url alt_text then
          let d := download_image net decode images_dir s.fs full_url start_url
          match d.record with
          | some meta =>
            crawlLoop net decode images_dir start_url max_images keyword_filter rest
              { results := s.results ++ [{ meta with alt_text := some alt_text }],
                count := s.count + 1, fs := d.fs,
                fetches := s.fetches + d.fetches, sleeps := s.sleeps + 1 }
          | none =>
            crawlLoop net decode images_dir start_url max_images keyword_filter rest
              { s with fs := d.fs, fetches := s.fetches + d.fetches }
        else crawlLoop net decode images_dir start_url max_images keyword_filter rest s

/-- `fetch_page` (crawler.py lines 55-65): parsed page on HTTP 200,
`none` on any other status or a transport exception. -/
def fetch_page (page : String → Option PageFetch) (url : String) :
    Option (List ImgTag) :=
  match page url with
  | some r => if r.status = 200 then some r.tags else none
  | none => none

/-- Outcome of one `crawl` call. -/
structure CrawlResult where
  results : List DownloadRecord
  fs : List String
  imageFetches : Nat
  sleeps : Nat
  pageFetches : Nat
deriving Repr, DecidableEq

/-- `crawl(start_url, max_images, keyword_filter)`, crawler.py lines
128-192, starting from filesystem contents `fs₀`. -/
def crawl (page : String → Option PageFetch) (net : String → Option FetchResult)
    (decode : List Nat → Option (Nat × Nat)) (images_dir : String)
    (fs₀ : List String) (start_url : String) (max_images : Int)
    (keyword_filter : Option String) : CrawlResult :=
  match fetch_page page start_url with
  | none => { results := [], fs := fs₀, imageFetches := 0, sleeps := 0, pageFetches := 1 }
  | some tags =>
    let s := crawlLoop net decode images_dir start_url max_images keyword_filter tags
      { results := [], count := 0, fs := fs₀, fetches := 0, sleeps := 0 }
    { results := s.results, fs := s.fs, imageFetches := s.fetches,
      sleeps := s.sleeps, pageFetches := 1 }

/-! ### `UniversalRanker` (ranker.py)

`tldextract.extract` is an external component backed by the public
suffix list; it enters as an oracle `tldx : String → String × String`
returning the `(domain, suffix)` components the source reads.  The
search provider enters as an oracle
`search : String → Nat → Option (List RawResult)`; `none` models the
`ddgs.text` call raising. -/

/-- One raw search result, holding the fields the ranker reads. -/
structure RawResult where
  href : String
  title : String
deriving Repr, DecidableEq

/-- A raw result with its `score` key attached (ranker.py line 49). -/
structure ScoredResult where
  href : String
  title : String
  score : Int
deriving Repr, DecidableEq

/-- `self.BLOCK_DOMAINS` (ranker.py lines 10-12). -/
def BLOCK_DOMAINS : List String :=
  ["pinterest", "facebook", "twitter", "instagram", "tiktok"]

/-- `calculate_score` (ranker.py lines 18-34): base 50, `-1000` for a
blocklisted registrable domain, `+20` for suffix `edu`. -/
def calculate_score (tldx : String → String × String) (result : RawResult) : Int :=
  let url := result.href
  let domain := pyLower (tldx url).1
  if BLOCK_DOMAINS.contains domain then -1000
  else if (tldx url).2 = "edu" then 50 + 20
  else 50

/-- Stable descending insertion by `score`: an element moves past
exactly the entries with a strictly smaller score, so equal scores keep
their original relative order. -/
def insertDesc (x : ScoredResult) : List ScoredResult → List ScoredResult
  | [] => [x]
  | y :: ys => if x.score ≤ y.score then y :: insertDesc x ys else x :: y :: ys

/-- `sorted(results, key=lambda x: x['score'], reverse=True)` — Python's
stable sort, descending by score (ranker.py line 55). -/
def sortByScoreDesc (l : List ScoredResult) : List ScoredResult :=
  l.foldl (fun acc x => insertDesc x acc) []

/-- The loop body of `search_and_rank` (ranker.py lines 46-50): attach
the score when it is positive, drop the entry otherwise. -/
def scoreFilter (tldx : String → String × String) (r : RawResult) : Option ScoredResult :=
  let score := calculate_score tldx r
  if score > 0 then some ⟨r.href, r.title, score⟩ else none

/-- `search_and_rank` (ranker.py lines 36-55): score each raw result,
keep those with score > 0, sort descending; a search failure yields
`[]`. -/
def search_and_rank (tldx : String → String × String)
    (search : String → Nat → Option (List RawResult))
    (query : String) (max_results : Nat) : List ScoredResult :=
  match search query max_results with
  | none => []
  | some raw => sortByScoreDesc (raw.filterMap (scoreFilter tldx))

/-! ### The ImageFilter contract as the specification words it

Spec §4.3 / claim C5: `shouldPursue(candidate, keyword?)` accepts a
candidate iff the keyword (when provided) appears case-insensitively in
the resolved URL or the alt text, the URL path's extension is absent or
case-insensitively one of jpg/jpeg/png/webp/bmp/gif, and the
lower-cased URL contains neither "logo" nor "icon". -/

/-- The filter predicate as the specification states it (to be compared
with `passesFilters`, which is transcribed from the source). -/
def shouldPursueSpec (keyword : Option String) (full_url alt_text : String) : Prop :=
  (∀ kw, keyword = some kw →
    (strContains (pyLower full_url) (pyLower kw) = true ∨
     strContains (pyLower alt_text) (pyLower kw) = true)) ∧
  (urlExtLower full_url = "" ∨
    [".jpg", ".jpeg", ".png", ".webp", ".bmp", ".gif"].contains (urlExtLower full_url) = true) ∧
  strContains (pyLower full_url) "logo" = false ∧
  strContains (pyLower full_url) "icon" = false

/-! ### Concrete oracles used by witnesses and counterexamples -/

/-- A network where every image URL answers HTTP 200 with a 500-byte
body (under the 1024-byte minimum). -/
def tinyNet : String → Option FetchResult := fun _ => some ⟨200, List.replicate 500 0⟩

/-- A network where every image URL answers HTTP 200 with a 2048-byte
body. -/
def goodNet : String → Option FetchResult := fun _ => some ⟨200, List.replicate 2048 7⟩

/-- A network where every request raises a transport error. -/
def downNet : String → Option FetchResult := fun _ => none

/-- An image codec that decodes everything as a 640×480 image. -/
def okDecode : List Nat → Option (Nat × Nat) := fun _ => some (640, 480)

/-- An image codec that rejects everything. -/
def noDecode : List Nat → Option (Nat × Nat) := fun _ => none

/-- A page fetcher answering HTTP 200 with the given `img` elements for
every page URL. -/
def pageWith (tags : List ImgTag) : String → Option PageFetch := fun _ => some ⟨200, tags⟩

/-- A page fetcher where every request raises a transport error. -/
def downPage : String → Option PageFetch := fun _ => none

/-- A page fetcher answering HTTP 404 for every page URL. -/
def page404 : String → Option PageFetch := fun _ => some ⟨404, []⟩

/-- Three plain `img` elements with absolute image URLs. -/
def tagA : ImgTag := { src := some "http://site.com/a.jpg" }

def tagB : ImgTag := { src := some "http://site.com/b.jpg", alt := some " two " }

def tagC : ImgTag := { src := some "http://site.com/c.jpg" }

/-- An `img` element filtered out by the logo heuristic. -/
def tagLogo : ImgTag := { src := some "http://site.com/logo-header.png" }

/-- An `img` element with no usable source attribute. -/
def tagEmpty : ImgTag := { src := some "", alt := some "nothing" }

/-- The initial loop state over an empty directory. -/
def s0 : CrawlState :=
  { results := [], count := 0, fs := [], fetches := 0, sleeps := 0 }

/-- The record a verified 640×480 download of `http://site.com/a.jpg`
produces. -/
def metaA : DownloadRecord :=
  { status := "downloaded", path := "downloads/images/img_0e7ae4de14a3.jpg",
    url := "http://site.com/a.jpg", filename := "img_0e7ae4de14a3.jpg",
    referer := some "http://site.com/", resolution := some "640x480" }

/-- `tldextract.extract`, restricted to the URLs of the ranking
example: returns the `(domain, suffix)` pair the library would. -/
def tldxExample : String → String × String := fun u =>
  if u = "https://pinterest.com/x" then ("pinterest", "com")
  else if u = "https://univ.edu/x" then ("univ", "edu")
  else if u = "https://news.com/x" then ("news", "com")
  else if u = "https://blog.com/x" then ("blog", "com")
  else ("", "")

/-- The raw search results of the ranking example (spec §8), extended
with a second plain-`.com` entry so the tie order is visible. -/
def rawExample : List RawResult :=
  [⟨"https://pinterest.com/x", "P"⟩, ⟨"https://univ.edu/x", "U"⟩,
   ⟨"https://news.com/x", "N"⟩, ⟨"https://blog.com/x", "B"⟩]

/-- A search provider returning the example results for every query. -/
def searchExample : String → Nat → Option (List RawResult) := fun _ _ => some rawExample

/-- A search provider whose every call raises. -/
def searchFailing : String → Nat → Option (List RawResult) := fun _ _ => none

/-! ### MD5 test vectors (RFC 1321), validating the digest embedding -/

theorem md5_test_vector_empty : md5hexStr "" = "d41d8cd98f00b204e9800998ecf8427e" := by
  decide

theorem md5_test_vector_abc : md5hexStr "abc" = "900150983cd24fb0d6963f7d28e17f72" := by
  decide

/-! ### Case lemmas for `download_image` -/

theorem download_image_hit (net : String → Option FetchResult)
    (decode : List Nat → Option (Nat × Nat)) (dir : String) (fs : List String)
    (url ref : String) (h : fs.contains (derivedPath dir url) = true) :
    download_image net decode dir fs url ref =
      { record := some { status := "exists", path := derivedPath dir url, url := url,
                         filename := derivedFilename url },
        fs := fs, fetches := 0 } := by
  simp only [download_image, h, if_true]

theorem download_image_transport_err (net : String → Option FetchResult)
    (decode : List Nat → Option (Nat × Nat)) (dir : String) (fs : List String)
    (url ref : String) (h : fs.contains (derivedPath dir url) = false)
    (hn : net url = none) :
    download_image net decode dir fs url ref = { record := none, fs := fs, fetches := 1 } := by
  simp only [download_image, h, hn, Bool.false_eq_true, if_false]

theorem download_image_bad_status (net : String → Option FetchResult)
    (decode : List Nat → Option (Nat × Nat)) (dir : String) (fs : List String)
    (url ref : String) (r : FetchResult)
    (h : fs.contains (derivedPath dir url) = false)
    (hn : net url = some r) (hs : ¬ r.status = 200) :
    download_image net decode dir fs url ref = { record := none, fs := fs, fetches := 1 } := by
  simp only [download_image, h, hn, hs, Bool.false_eq_true, if_false]

theorem download_image_small (net : String → Option FetchResult)
    (decode : List Nat → Option (Nat × Nat)) (dir : String) (fs : List String)
    (url ref : String) (r : FetchResult)
    (h : fs.contains (derivedPath dir url) = false)
    (hn : net url = some r) (hs : r.status = 200) (hl : r.content.length < 1024) :
    download_image net decode dir fs url ref = { record := none, fs := fs, fetches := 1 } := by
  simp only [download_image, h, hn, hs, hl, Bool.false_eq_true, if_false, if_true]

theorem download_image_bad_decode (net : String → Option FetchResult)
    (decode : List Nat → Option (Nat × Nat)) (dir : String) (fs : List String)
    (url ref : String) (r : FetchResult)
    (h : fs.contains (derivedPath dir url) = false)
    (hn : net url = some r) (hs : r.status = 200) (hl : ¬ r.content.length < 1024)
    (hd : decode r.content = none) :
    download_image net decode dir fs url ref = { record := none, fs := fs, fetches := 1 } := by
  simp only [download_image, h, hn, hs, hl, hd, Bool.false_eq_true, if_false, if_true]

theorem download_image_success (net : String → Option FetchResult)
    (decode : List Nat → Option (Nat × Nat)) (dir : String) (fs : List String)
    (url ref : String) (r : FetchResult) (w hgt : Nat)
    (h : fs.contains (derivedPath dir url) = false)
    (hn : net url = some r) (hs : r.status = 200) (hl : ¬ r.content.length < 1024)
    (hd : decode r.content = some (w, hgt)) :
    download_image net decode dir fs url ref =
      { record := some { status := "downloaded", path := derivedPath dir url, url := url,
                         filename := derivedFilename url, referer := some ref,
                         resolution := some (toString w ++ "x" ++ toString hgt) },
        fs := derivedPath dir url :: fs, fetches := 1 } := by
  simp only [download_image, h, hn, hs, hl, hd, Bool.false_eq_true, if_false, if_true]

/-- Exhaustive case analysis of one `download_image` call: either a
cache hit with no fetch, a failure that returns `none`, leaves the
filesystem untouched and used one fetch, or a verified download that
adds exactly the derived path and used one fetch. -/
theorem download_image_cases (net : String → Option FetchResult)
    (decode : List Nat → Option (Nat × Nat)) (dir : String) (fs : List String)
    (url ref : String) :
    (fs.contains (derivedPath dir url) = true ∧
      download_image net decode dir fs url ref =
        { record := some { status := "exists", path := derivedPath dir url, url := url,
                           filename := derivedFilename url }, fs := fs, fetches := 0 }) ∨
    (fs.contains (derivedPath dir url) = false ∧
      download_image net decode dir fs url ref = { record := none, fs := fs, fetches := 1 }) ∨
    (∃ r w hgt, fs.contains (derivedPath dir url) = false ∧ net url = some r ∧
      r.status = 200 ∧ 1024 ≤ r.content.length ∧ decode r.content = some (w, hgt) ∧
      download_image net decode dir fs url ref =
        { record := some { status := "downloaded", path := derivedPath dir url, url := url,
                           filename := derivedFilename url, referer := some ref,
                           resolution := some (toString w ++ "x" ++ toString hgt) },
          fs := derivedPath dir url :: fs, fetches := 1 }) := by
  by_cases h : fs.contains (derivedPath dir url) = true
  · exact Or.inl ⟨h, download_image_hit net decode dir fs url ref h⟩
  · rw [Bool.not_eq_true] at h
    rcases Option.eq_none_or_eq_some (net url) with hn | ⟨r, hn⟩
    · exact Or.inr (Or.inl ⟨h, download_image_transport_err net decode dir fs url ref h hn⟩)
    · by_cases hs : r.status = 200
      · by_cases hl : r.content.length < 1024
        · exact Or.inr (Or.inl ⟨h, download_image_small net decode dir fs url ref r h hn hs hl⟩)
        · rcases Option.eq_none_or_eq_some (decode r.content) with hd | ⟨⟨w, hgt⟩, hd⟩
          · exact Or.inr (Or.inl ⟨h, download_image_bad_decode net decode dir fs url ref r h hn hs hl hd⟩)
          · exact Or.inr (Or.inr ⟨r, w, hgt, h, hn, hs, Nat.le_of_not_lt hl, hd,
              download_image_success net decode dir fs url ref r w hgt h hn hs hl hd⟩)
      · exact Or.inr (Or.inl ⟨h, download_image_bad_status net decode dir fs url ref r h hn hs⟩)

/-! ### Step lemmas for the `crawl` loop -/

theorem crawlLoop_stop (net : String → Option FetchResult)
    (decode : List Nat → Option (Nat × Nat)) (dir surl : String) (m : Int)
    (kw : Option String) (t : ImgTag) (rest : List ImgTag) (s : CrawlState)
    (hm : (s.count : Int) ≥ m) :
    crawlLoop net decode dir surl m kw (t :: rest) s = s := by
  simp only [crawlLoop, if_pos hm]

theorem crawlLoop_skip_nosrc (net : String → Option FetchResult)
    (decode : List Nat → Option (Nat × Nat)) (dir surl : String) (m : Int)
    (kw : Option String) (t : ImgTag) (rest : List ImgTag) (s : CrawlState)
    (hm : ¬ (s.count : Int) ≥ m) (hc : candidateOf surl t = none) :
    crawlLoop net decode dir surl m kw (t :: rest) s =
      crawlLoop net decode dir surl m kw rest s := by
  simp only [crawlLoop, if_neg hm, hc]

theorem crawlLoop_skip_filtered (net : String → Option FetchResult)
    (decode : List Nat → Option (Nat × Nat)) (dir surl : String) (m : Int)
    (kw : Option String) (t : ImgTag) (rest : List ImgTag) (s : CrawlState)
    (u a : String) (hm : ¬ (s.count : Int) ≥ m)
    (hc : candidateOf surl t = some (u, a)) (hp : passesFilters kw u a = false) :
    crawlLoop net decode dir surl m kw (t :: rest) s =
      crawlLoop net decode dir surl m kw rest s := by
  simp only [crawlLoop, if_neg hm, hc, hp, Bool.false_eq_true, if_false]

theorem crawlLoop_skip_failed (net : String → Option FetchResult)
    (decode : List Nat → Option (Nat × Nat)) (dir surl : String) (m : Int)
    (kw : Option String) (t : ImgTag) (rest : List ImgTag) (s : CrawlState)
    (u a : String) (hm : ¬ (s.count : Int) ≥ m)
    (hc : candidateOf surl t = some (u, a)) (hp : passesFilters kw u a = true)
    (hd : (download_image net decode dir s.fs u surl).record = none) :
    crawlLoop net decode dir surl m kw (t :: rest) s =
      crawlLoop net decode dir surl m kw rest
        { s with fs := (download_image net decode dir s.fs u surl).fs,
                 fetches := s.fetches + (download_image net decode dir s.fs u surl).fetches } := by
  simp only [crawlLoop, if_neg hm, hc, hp, if_true, hd]

theorem crawlLoop_step_success (net : String → Option FetchResult)
    (decode : List Nat → Option (Nat × Nat)) (dir surl : String) (m : Int)
    (kw : Option String) (t : ImgTag) (rest : List ImgTag) (s : CrawlState)
    (u a : String) (meta : DownloadRecord) (hm : ¬ (s.count : Int) ≥ m)
    (hc : candidateOf surl t = some (u, a)) (hp : passesFilters kw u a = true)
    (hd : (download_image net decode dir s.fs u surl).record = some meta) :
    crawlLoop net decode dir surl m kw (t :: rest) s =
      crawlLoop net decode dir surl m kw rest
        { results := s.results ++ [{ meta with alt_text := some a }],
          count := s.count + 1, fs := (download_image net decode dir s.fs u surl).fs,
          fetches := s.fetches + (download_image net decode dir s.fs u surl).fetches,
          sleeps := s.sleeps + 1 } := by
  simp only [crawlLoop, if_neg hm, hc, hp, if_true, hd]

/-- If `download_image` returns `none`, the filesystem is unchanged and
one fetch was attempted. -/
theorem download_image_none_inv (net : String → Option FetchResult)
    (decode : List Nat → Option (Nat × Nat)) (dir : String) (fs : List String)
    (url ref : String)
    (h : (download_image net decode dir fs url ref).record = none) :
    download_image net decode dir fs url ref = { record := none, fs := fs, fetches := 1 } := by
  rcases download_image_cases net decode dir fs url ref with ⟨_, he⟩ | ⟨_, he⟩ | ⟨r, w, hgt, _, _, _, _, _, he⟩
  · rw [he] at h; exact absurd h (by simp)
  · exact he
  · rw [he] at h; exact absurd h (by simp)

/-- Combined loop invariants of the `for img in img_tags` loop: the
growth of `results` equals the growth of `count`, the growth of the
sleep counter equals the growth of `results`, `count` never exceeds the
cap once below it, and alt text is attached to every appended record. -/
theorem crawlLoop_invariants (net : String → Option FetchResult)
    (decode : List Nat → Option (Nat × Nat)) (dir surl : String) (m : Int)
    (kw : Option String) :
    ∀ (tags : List ImgTag) (s : CrawlState),
      ((crawlLoop net decode dir surl m kw tags s).results.length + s.count
        = s.results.length + (crawlLoop net decode dir surl m kw tags s).count) ∧
      ((crawlLoop net decode dir surl m kw tags s).sleeps + s.results.length
        = s.sleeps + (crawlLoop net decode dir surl m kw tags s).results.length) ∧
      (s.count ≤ m.toNat → (crawlLoop net decode dir surl m kw tags s).count ≤ m.toNat) ∧
      ((∀ rec ∈ s.results, rec.alt_text ≠ none) →
        ∀ rec ∈ (crawlLoop net decode dir surl m kw tags s).results, rec.alt_text ≠ none)
  | [], s => by
    simp only [crawlLoop]
    exact ⟨trivial, trivial, fun h => h, fun h => h⟩
  | t :: rest, s => by
    by_cases hm : (s.count : Int) ≥ m
    · rw [crawlLoop_stop net decode dir surl m kw t rest s hm]
      exact ⟨by omega, by omega, fun h => h, fun h => h⟩
    · rcases hc : candidateOf surl t with _ | ⟨u, a⟩
      · rw [crawlLoop_skip_nosrc net decode dir surl m kw t rest s hm hc]
        exact crawlLoop_invariants net decode dir surl m kw rest s
      · rcases hp : passesFilters kw u a with _ | _
        · rw [crawlLoop_skip_filtered net decode dir surl m kw t rest s u a hm hc hp]
          exact crawlLoop_invariants net decode dir surl m kw rest s
        · rcases hd : (download_image net decode dir s.fs u surl).record with _ | meta
          · rw [crawlLoop_skip_failed net decode dir surl m kw t rest s u a hm hc hp hd]
            exact crawlLoop_invariants net decode dir surl m kw rest
              { s with fs := (download_image net decode dir s.fs u surl).fs,
                       fetches := s.fetches + (download_image net decode dir s.fs u surl).fetches }
          · rw [crawlLoop_step_success net decode dir surl m kw t rest s u a meta hm hc hp hd]
            have ih := crawlLoop_invariants net decode dir surl m kw rest
              { results := s.results ++ [{ meta with alt_text := some a }],
                count := s.count + 1, fs := (download_image net decode dir s.fs u surl).fs,
                fetches := s.fetches + (download_image net decode dir s.fs u surl).fetches,
                sleeps := s.sleeps + 1 }
            obtain ⟨ih1, ih2, ih3, ih4⟩ := ih
            simp only [List.length_append, List.length_cons, List.length_nil] at ih1 ih2
            refine ⟨by omega, by omega, fun h => ih3 (by simp only []; omega), fun h => ?_⟩
            · refine ih4 ?_
              intro rec hrec
              rcases List.mem_append.mp hrec with hl | hr
              · exact h rec hl
              · simp only [List.mem_singleton] at hr
                subst hr
                simp

/-! ### Lemmas about the stable descending sort of the ranker -/

theorem mem_insertDesc (x y : ScoredResult) :
    ∀ l : List ScoredResult, y ∈ insertDesc x l ↔ y = x ∨ y ∈ l
  | [] => by simp [insertDesc]
  | z :: zs => by
    simp only [insertDesc]
    by_cases h : x.score ≤ z.score
    · rw [if_pos h]
      simp only [List.mem_cons, mem_insertDesc x y zs]
      tauto
    · rw [if_neg h]
      simp only [List.mem_cons]

theorem insertDesc_head (x : ScoredResult) (l : List ScoredResult) :
    (insertDesc x l).head? = some x ∨ (insertDesc x l).head? = l.head? := by
  cases l with
  | nil => exact Or.inl rfl
  | cons z zs =>
    simp only [insertDesc]
    by_cases h : x.score ≤ z.score
    · rw [if_pos h]; exact Or.inr rfl
    · rw [if_neg h]; exact Or.inl rfl

theorem chain_insertDesc (x : ScoredResult) :
    ∀ l : List ScoredResult,
      List.Chain' (fun a b => b.score ≤ a.score) l →
      List.Chain' (fun a b => b.score ≤ a.score) (insertDesc x l)
  | [], _ => by simp [insertDesc]
  | z :: zs, h => by
    simp only [insertDesc]
    by_cases hle : x.score ≤ z.score
    · rw [if_pos hle]
      rw [List.chain'_cons'] at h ⊢
      refine ⟨?_, chain_insertDesc x zs h.2⟩
      intro b hb
      rcases insertDesc_head x zs with hh | hh
      · rw [hh] at hb
        obtain rfl : x = b := by simpa using hb
        exact hle
      · rw [hh] at hb
        exact h.1 b hb
    · rw [if_neg hle]
      rw [List.chain'_cons]
      exact ⟨le_of_lt (not_le.mp hle), h⟩

theorem chain_sortAux :
    ∀ (l acc : List ScoredResult),
      List.Chain' (fun a b => b.score ≤ a.score) acc →
      List.Chain' (fun a b => b.score ≤ a.score)
        (l.foldl (fun acc x => insertDesc x acc) acc)
  | [], _, h => h
  | x :: xs, acc, h => chain_sortAux xs (insertDesc x acc) (chain_insertDesc x acc h)

/-- `sortByScoreDesc` always yields a list whose scores descend. -/
theorem chain_sortByScoreDesc (l : List ScoredResult) :
    List.Chain' (fun a b => b.score ≤ a.score) (sortByScoreDesc l) :=
  chain_sortAux l [] List.chain'_nil

theorem mem_sortAux (y : ScoredResult) :
    ∀ (l acc : List ScoredResult),
      y ∈ l.foldl (fun acc x => insertDesc x acc) acc ↔ y ∈ acc ∨ y ∈ l
  | [], acc => by simp
  | x :: xs, acc => by
    simp only [List.foldl_cons, mem_sortAux y xs (insertDesc x acc),
      mem_insertDesc x y acc, List.mem_cons]
    tauto

/-- `sortByScoreDesc` permutes its input: membership is preserved. -/
theorem mem_sortByScoreDesc (y : ScoredResult) (l : List ScoredResult) :
    y ∈ sortByScoreDesc l ↔ y ∈ l := by
  simp [sortByScoreDesc, mem_sortAux y l []]

/-! ### Claim theorems -/

/-- C2: ImageStore never persists unverified content — `download_image`
writes to the derived path only after the ≥1024-byte check and the
decode/verify check both pass; a too-small or undecodable payload
yields `none` and leaves the filesystem unchanged; and whenever the
filesystem did change, a verified payload was downloaded. -/
theorem download_image_no_unverified_persist
    (net : String → Option FetchResult) (decode : List Nat → Option (Nat × Nat))
    (dir : String) (fs : List String) (url ref : String) :
    ((download_image net decode dir fs url ref).record = none →
      (download_image net decode dir fs url ref).fs = fs) ∧
    (∀ r, fs.contains (derivedPath dir url) = false → net url = some r →
      r.status = 200 → (r.content.length < 1024 ∨ decode r.content = none) →
      (download_image net decode dir fs url ref).record = none ∧
      (download_image net decode dir fs url ref).fs = fs) ∧
    ((download_image net decode dir fs url ref).fs ≠ fs →
      ∃ r w hgt, net url = some r ∧ r.status = 200 ∧ 1024 ≤ r.content.length ∧
        decode r.content = some (w, hgt) ∧
        (download_image net decode dir fs url ref).fs = derivedPath dir url :: fs ∧
        (download_image net decode dir fs url ref).record ≠ none) := by
  refine ⟨?_, ?_, ?_⟩
  · intro h
    rcases download_image_cases net decode dir fs url ref with ⟨_, he⟩ | ⟨_, he⟩ | ⟨r, w, hgt, _, _, _, _, _, he⟩
    · rw [he] at h; exact absurd h (by simp)
    · rw [he]
    · rw [he] at h; exact absurd h (by simp)
  · intro r hc hn hs hor
    rcases hor with hl | hd
    · rw [download_image_small net decode dir fs url ref r hc hn hs hl]
      exact ⟨rfl, rfl⟩
    · by_cases hl : r.content.length < 1024
      · rw [download_image_small net decode dir fs url ref r hc hn hs hl]
        exact ⟨rfl, rfl⟩
      · rw [download_image_bad_decode net decode dir fs url ref r hc hn hs hl hd]
        exact ⟨rfl, rfl⟩
  · intro hne
    rcases download_image_cases net decode dir fs url ref with ⟨_, he⟩ | ⟨_, he⟩ | ⟨r, w, hgt, _, hn, hs, hl, hd, he⟩
    · rw [he] at hne; exact absurd rfl hne
    · rw [he] at hne; exact absurd rfl hne
    · exact ⟨r, w, hgt, hn, hs, hl, hd, by rw [he], by rw [he]; simp⟩

/-- Witness for C2 at a concrete input: a 500-byte payload for a fresh
URL is rejected and creates no file. -/
theorem download_image_no_unverified_persist_witness :
    (download_image tinyNet okDecode "downloads/images" [] "http://img.com/a.jpg" "http://p.com").record = none ∧
    (download_image tinyNet okDecode "downloads/images" [] "http://img.com/a.jpg" "http://p.com").fs = [] :=
  (download_image_no_unverified_persist tinyNet okDecode "downloads/images" []
    "http://img.com/a.jpg" "http://p.com").2.1 ⟨200, List.replicate 500 0⟩ rfl rfl rfl
    (Or.inl (by decide))

/-- C1 (amended): dedup holds after a *successful* acquisition — if a
call to `download_image` returns a record, any later call for the same
URL against the resulting directory performs no network access and
returns status `exists` with the identical storage path; and when the
first call's status is `downloaded` it performed exactly one fetch.
(The unconditional claim fails for failed acquisitions, which persist
nothing and are fetched again; see the counterexample.) -/
theorem acquire_dedup_after_success
    (net : String → Option FetchResult) (decode : List Nat → Option (Nat × Nat))
    (dir : String) (fs : List String) (url ref₁ ref₂ : String) (rec : DownloadRecord)
    (h : (download_image net decode dir fs url ref₁).record = some rec) :
    (download_image net decode dir (download_image net decode dir fs url ref₁).fs url ref₂).fetches = 0 ∧
    (download_image net decode dir (download_image net decode dir fs url ref₁).fs url ref₂).record =
      some { status := "exists", path := rec.path, url := url, filename := rec.filename } ∧
    rec.path = derivedPath dir url ∧
    (rec.status = "downloaded" →
      (download_image net decode dir fs url ref₁).fetches = 1) := by
  rcases download_image_cases net decode dir fs url ref₁ with ⟨hc, he⟩ | ⟨_, he⟩ | ⟨r, w, hgt, _, _, _, _, _, he⟩
  · rw [he] at h ⊢
    simp only [Option.some.injEq] at h
    subst h
    rw [download_image_hit net decode dir fs url ref₂ hc]
    exact ⟨rfl, rfl, rfl, fun hs => absurd hs (by simp)⟩
  · rw [he] at h
    exact absurd h (by simp)
  · rw [he] at h ⊢
    simp only [Option.some.injEq] at h
    subst h
    have hcontains : (derivedPath dir url :: fs).contains (derivedPath dir url) = true := by
      simp [List.contains_cons]
    rw [download_image_hit net decode dir (derivedPath dir url :: fs) url ref₂ hcontains]
    exact ⟨rfl, rfl, rfl, fun _ => rfl⟩

/-- Witness for C1's amended theorem at a concrete input: a verified
2048-byte download of `http://e.com/a.jpg`, then a second acquisition
with a different referer. -/
theorem acquire_dedup_after_success_witness :
    (download_image goodNet okDecode "downloads/images"
      (download_image goodNet okDecode "downloads/images" [] "http://e.com/a.jpg" "http://p.com").fs
      "http://e.com/a.jpg" "http://q.com").fetches = 0 ∧
    (download_image goodNet okDecode "downloads/images"
      (download_image goodNet okDecode "downloads/images" [] "http://e.com/a.jpg" "http://p.com").fs
      "http://e.com/a.jpg" "http://q.com").record =
      some { status := "exists", path := "downloads/images/img_14609e4fed05.jpg",
             url := "http://e.com/a.jpg", filename := "img_14609e4fed05.jpg" } ∧
    ("downloads/images/img_14609e4fed05.jpg" : String) = derivedPath "downloads/images" "http://e.com/a.jpg" ∧
    (("downloaded" : String) = "downloaded" →
      (download_image goodNet okDecode "downloads/images" [] "http://e.com/a.jpg" "http://p.com").fetches = 1) :=
  acquire_dedup_after_success goodNet okDecode "downloads/images" [] "http://e.com/a.jpg"
    "http://p.com" "http://q.com"
    { status := "downloaded", path := "downloads/images/img_14609e4fed05.jpg",
      url := "http://e.com/a.jpg", filename := "img_14609e4fed05.jpg",
      referer := some "http://p.com", resolution := some "640x480" }
    (by
      rw [download_image_success goodNet okDecode "downloads/images" [] "http://e.com/a.jpg"
        "http://p.com" ⟨200, List.replicate 2048 7⟩ 640 480 rfl rfl rfl
        (by simp) rfl]
      decide)

/-- Counterexample to C1 as stated: for a URL whose payload is an
HTTP-200 body of 500 bytes (rejected by the minimum-size check),
calling `download_image` twice against the same directory performs one
network fetch *each* time — two in total, not "exactly one"; the second
call performs network access and returns `none`, not an `exists`
record. -/
theorem acquire_twice_single_fetch_cex :
    (download_image tinyNet okDecode "downloads/images" [] "http://img.com/a.jpg" "http://p.com").fetches = 1 ∧
    (download_image tinyNet okDecode "downloads/images" [] "http://img.com/a.jpg" "http://p.com").record = none ∧
    (download_image tinyNet okDecode "downloads/images"
      (download_image tinyNet okDecode "downloads/images" [] "http://img.com/a.jpg" "http://p.com").fs
      "http://img.com/a.jpg" "http://p.com").fetches = 1 ∧
    (download_image tinyNet okDecode "downloads/images"
      (download_image tinyNet okDecode "downloads/images" [] "http://img.com/a.jpg" "http://p.com").fs
      "http://img.com/a.jpg" "http://p.com").record = none := by
  decide

/-- C6 (amended): the content identifier is `md5(urlString)[:12]`, a
pure function of the exact URL string — every record `download_image`
returns carries the storage path, filename and URL derived from the
image URL alone, the same on every call and independent of the
`referer` argument and of the directory state.  (Independence from the
*order of query parameters* does not hold: reordering the query string
changes the URL string and hence the digest; see the counterexample.) -/
theorem identifier_deterministic_referer_independent
    (net : String → Option FetchResult) (decode : List Nat → Option (Nat × Nat))
    (dir : String) (fs : List String) (url ref : String) (rec : DownloadRecord)
    (h : (download_image net decode dir fs url ref).record = some rec) :
    rec.path = derivedPath dir url ∧ rec.filename = derivedFilename url ∧
    rec.url = url ∧ derivedFilename url = "img_" ++ md5hex12 url ++ inferredExt url := by
  rcases download_image_cases net decode dir fs url ref with ⟨_, he⟩ | ⟨_, he⟩ | ⟨r, w, hgt, _, _, _, _, _, he⟩
  · rw [he] at h
    simp only [Option.some.injEq] at h
    subst h
    exact ⟨rfl, rfl, rfl, rfl⟩
  · rw [he] at h
    exact absurd h (by simp)
  · rw [he] at h
    simp only [Option.some.injEq] at h
    subst h
    exact ⟨rfl, rfl, rfl, rfl⟩

/-- Witness for C6's amended theorem: the cached record for
`http://e.com/a.jpg` carries exactly the canonical derived path and
filename. -/
theorem identifier_deterministic_referer_independent_witness :
    ("downloads/images/img_14609e4fed05.jpg" : String) = derivedPath "downloads/images" "http://e.com/a.jpg" ∧
    ("img_14609e4fed05.jpg" : String) = derivedFilename "http://e.com/a.jpg" ∧
    ("http://e.com/a.jpg" : String) = "http://e.com/a.jpg" ∧
    derivedFilename "http://e.com/a.jpg" =
      "img_" ++ md5hex12 "http://e.com/a.jpg" ++ inferredExt "http://e.com/a.jpg" :=
  identifier_deterministic_referer_independent downNet noDecode "downloads/images"
    ["downloads/images/img_14609e4fed05.jpg"] "http://e.com/a.jpg" "http://page.com"
    { status := "exists", path := "downloads/images/img_14609e4fed05.jpg",
      url := "http://e.com/a.jpg", filename := "img_14609e4fed05.jpg" }
    (by decide)

/-- Counterexample to C6 as stated: two URLs that differ only in the
order of their query parameters receive *different* identifiers and
different storage filenames — the digest is taken over the raw URL
string, with no query normalization. -/
theorem identifier_query_order_cex :
    md5hex12 "https://example.com/a.jpg?x=1&y=2" ≠ md5hex12 "https://example.com/a.jpg?y=2&x=1" ∧
    derivedFilename "https://example.com/a.jpg?x=1&y=2" ≠ derivedFilename "https://example.com/a.jpg?y=2&x=1" := by
  decide

/-- C7 (amended): every record returned by `download_image` carries the
status, storage path, source URL and filename; a `downloaded` record
additionally carries the referer URL and the resolution, while an
`exists` record carries *neither* a referer nor a resolution (the
source builds that dict without those keys); and every record returned
by `crawl` has alt text attached. -/
theorem download_record_fields :
    (∀ (net : String → Option FetchResult) (decode : List Nat → Option (Nat × Nat))
       (dir : String) (fs : List String) (url ref : String) (rec : DownloadRecord),
      (download_image net decode dir fs url ref).record = some rec →
      rec.url = url ∧ rec.filename = derivedFilename url ∧ rec.path = derivedPath dir url ∧
      ((rec.status = "downloaded" ∧ rec.referer = some ref ∧ rec.resolution ≠ none) ∨
       (rec.status = "exists" ∧ rec.referer = none ∧ rec.resolution = none))) ∧
    (∀ (page : String → Option PageFetch) (net : String → Option FetchResult)
       (decode : List Nat → Option (Nat × Nat)) (dir : String) (fs₀ : List String)
       (surl : String) (m : Int) (kw : Option String) (rec : DownloadRecord),
      rec ∈ (crawl page net decode dir fs₀ surl m kw).results → rec.alt_text ≠ none) := by
  constructor
  · intro net decode dir fs url ref rec h
    rcases download_image_cases net decode dir fs url ref with ⟨_, he⟩ | ⟨_, he⟩ | ⟨r, w, hgt, _, _, _, _, _, he⟩
    · rw [he] at h
      simp only [Option.some.injEq] at h
      subst h
      exact ⟨rfl, rfl, rfl, Or.inr ⟨rfl, rfl, rfl⟩⟩
    · rw [he] at h
      exact absurd h (by simp)
    · rw [he] at h
      simp only [Option.some.injEq] at h
      subst h
      exact ⟨rfl, rfl, rfl, Or.inl ⟨rfl, rfl, by simp⟩⟩
  · intro page net decode dir fs₀ surl m kw rec hmem
    unfold crawl at hmem
    rcases hf : fetch_page page surl with _ | tags
    · rw [hf] at hmem
      simp at hmem
    · rw [hf] at hmem
      simp only at hmem
      exact (crawlLoop_invariants net decode dir surl m kw tags
        { results := [], count := 0, fs := fs₀, fetches := 0, sleeps := 0 }).2.2.2
        (by intro r hr; simp at hr) rec hmem

/-- Witness for C7's amended theorem at concrete inputs: the cached
`exists` record for `http://e.com/a.jpg`, and a one-tag page crawl. -/
theorem download_record_fields_witness :
    (("http://e.com/a.jpg" : String) = "http://e.com/a.jpg" ∧
      ("img_14609e4fed05.jpg" : String) = derivedFilename "http://e.com/a.jpg" ∧
      ("downloads/images/img_14609e4fed05.jpg" : String) = derivedPath "downloads/images" "http://e.com/a.jpg" ∧
      ((("exists" : String) = "downloaded" ∧ (none : Option String) = some "http://page.com" ∧
          (none : Option String) ≠ none) ∨
       (("exists" : String) = "exists" ∧ (none : Option String) = none ∧
          (none : Option String) = none))) ∧
    (∀ rec ∈ (crawl (pageWith [tagA]) tinyNet okDecode "downloads/images" []
        "http://site.com/" 5 none).results, rec.alt_text ≠ none) := by
  constructor
  · exact download_record_fields.1 downNet noDecode "downloads/images"
      ["downloads/images/img_14609e4fed05.jpg"] "http://e.com/a.jpg" "http://page.com"
      { status := "exists", path := "downloads/images/img_14609e4fed05.jpg",
        url := "http://e.com/a.jpg", filename := "img_14609e4fed05.jpg" }
      (by decide)
  · exact fun rec hr => download_record_fields.2 (pageWith [tagA]) tinyNet okDecode
      "downloads/images" [] "http://site.com/" 5 none rec hr

/-- Counterexample to C7 as stated: an acquisition that hits the cache
returns a record (status `exists`) that contains *no* referer URL —
refuting "every record returned by acquire contains ... the referer
URL". -/
theorem exists_record_no_referer_cex :
    (download_image downNet noDecode "downloads/images"
      [derivedPath "downloads/images" "http://e.com/a.jpg"]
      "http://e.com/a.jpg" "http://page.com").record =
      some { status := "exists", path := derivedPath "downloads/images" "http://e.com/a.jpg",
             url := "http://e.com/a.jpg", filename := derivedFilename "http://e.com/a.jpg" } ∧
    ((download_image downNet noDecode "downloads/images"
      [derivedPath "downloads/images" "http://e.com/a.jpg"]
      "http://e.com/a.jpg" "http://page.com").record.map DownloadRecord.referer) = some none := by
  decide

/-- C4: `search_and_rank` postcondition — every returned entry has
score > 0; the output is sorted descending by score (ties keep the
provider's original order, witnessed by the stable-sort example); and
on the spec's example inputs the blocklisted `pinterest` entry is
dropped while the `.edu` entry (score 70) is ordered above the plain
`.com` entries (score 50), which keep their original relative order. -/
theorem search_and_rank_postcondition :
    (∀ (tldx : String → String × String)
       (search : String → Nat → Option (List RawResult)) (q : String) (n : Nat)
       (x : ScoredResult), x ∈ search_and_rank tldx search q n → 0 < x.score) ∧
    (∀ (tldx : String → String × String)
       (search : String → Nat → Option (List RawResult)) (q : String) (n : Nat),
      List.Chain' (fun a b => b.score ≤ a.score) (search_and_rank tldx search q n)) ∧
    (search_and_rank tldxExample searchExample "query" 10 =
      [⟨"https://univ.edu/x", "U", 70⟩, ⟨"https://news.com/x", "N", 50⟩,
       ⟨"https://blog.com/x", "B", 50⟩]) := by
  refine ⟨?_, ?_, by decide⟩
  · intro tldx search q n x hx
    unfold search_and_rank at hx
    rcases hs : search q n with _ | raw
    · rw [hs] at hx
      simp at hx
    · rw [hs] at hx
      simp only at hx
      have hx' := (mem_sortByScoreDesc x (raw.filterMap (scoreFilter tldx))).mp hx
      rcases List.mem_filterMap.mp hx' with ⟨r, _, hfr⟩
      unfold scoreFilter at hfr
      by_cases hpos : calculate_score tldx r > 0
      · rw [if_pos hpos] at hfr
        simp only [Option.some.injEq] at hfr
        subst hfr
        exact hpos
      · rw [if_neg hpos] at hfr
        exact absurd hfr (by simp)
  · intro tldx search q n
    unfold search_and_rank
    rcases hs : search q n with _ | raw
    · exact List.chain'_nil
    · exact chain_sortByScoreDesc _

/-- Witness for C4 at concrete inputs: the `.edu` entry of the example
output has positive score, and the example output is sorted. -/
theorem search_and_rank_postcondition_witness :
    (0 : Int) < (⟨"https://univ.edu/x", "U", 70⟩ : ScoredResult).score ∧
    List.Chain' (fun a b => b.score ≤ a.score)
      (search_and_rank tldxExample searchExample "query" 10) :=
  ⟨search_and_rank_postcondition.1 tldxExample searchExample "query" 10
      ⟨"https://univ.edu/x", "U", 70⟩ (by decide),
   search_and_rank_postcondition.2.1 tldxExample searchExample "query" 10⟩

/-- The empty pattern is a substring of everything (Python `"" in s`). -/
theorem strContains_empty (s : String) : strContains s "" = true := by
  show listInfixOf [] s.data = true
  induction s.data with
  | nil => rfl
  | cons c cs ih => simp [listInfixOf, listPrefixOf]

/-- `is_valid_image_url` unfolded to the disjunction the spec states. -/
theorem is_valid_iff (u : String) :
    is_valid_image_url u = true ↔
      (urlExtLower u = "" ∨
        [".jpg", ".jpeg", ".png", ".webp", ".bmp", ".gif"].contains (urlExtLower u) = true) := by
  unfold is_valid_image_url
  by_cases h : urlExtLower u = ""
  · rw [if_pos h]
    simp [h]
  · rw [if_neg h]
    simp [h]

/-- The keyword stage of the filter, unfolded to the universally
quantified form the spec states. -/
theorem passes_keyword_iff (kw : Option String) (u a : String) :
    passes_keyword kw u a = true ↔
      ∀ k, kw = some k →
        (strContains (pyLower u) (pyLower k) = true ∨
         strContains (pyLower a) (pyLower k) = true) := by
  cases kw with
  | none =>
    constructor
    · intro _ k hk
      exact absurd hk (by simp)
    · intro _
      rfl
  | some k =>
    by_cases hke : k = ""
    · subst hke
      constructor
      · intro _ k' hk'
        have hk0 : k' = "" := by simpa using hk'.symm
        subst hk0
        exact Or.inl (strContains_empty (pyLower u))
      · intro _
        simp [passes_keyword]
    · constructor
      · intro h k' hk'
        have hkk : k' = k := by simpa using hk'.symm
        subst hkk
        simp only [passes_keyword] at h
        rw [if_pos (by simpa using hke)] at h
        simpa using h
      · intro h
        simp only [passes_keyword]
        rw [if_pos (by simpa using hke)]
        simpa using h k rfl

/-- C5: the filter block of `crawl` accepts a candidate iff the keyword
(when provided) appears case-insensitively in the resolved URL or alt
text, the URL path's extension is absent or among
jpg/jpeg/png/webp/bmp/gif, and the lower-cased URL contains neither
"logo" nor "icon"; in particular a URL containing "logo" is rejected
regardless of keyword and extension, a `.svg` URL is rejected by the
extension check, and an extensionless URL passes the extension check. -/
theorem filter_reference_definition :
    (∀ (kw : Option String) (u a : String),
      passesFilters kw u a = true ↔ shouldPursueSpec kw u a) ∧
    (∀ (kw : Option String) (u a : String),
      strContains (pyLower u) "logo" = true → passesFilters kw u a = false) ∧
    passesFilters none "https://site.com/logo-header.png" "" = false ∧
    (∀ (kw : Option String) (a : String),
      passesFilters kw "https://site.com/art.svg" a = false) ∧
    is_valid_image_url "https://site.com/img?id=42" = true := by
  refine ⟨?_, ?_, by decide, ?_, by decide⟩
  · intro kw u a
    constructor
    · intro h
      simp only [passesFilters, Bool.and_eq_true] at h
      obtain ⟨⟨hk, hv⟩, hni⟩ := h
      rw [Bool.not_eq_true'] at hni
      have hpair : strContains (pyLower u) "logo" = false ∧
          strContains (pyLower u) "icon" = false := by
        revert hni
        cases strContains (pyLower u) "logo" <;> cases strContains (pyLower u) "icon" <;> simp
      exact ⟨(passes_keyword_iff kw u a).mp hk, (is_valid_iff u).mp hv, hpair.1, hpair.2⟩
    · rintro ⟨hkw, hext, hlg, hic⟩
      simp only [passesFilters, Bool.and_eq_true]
      refine ⟨⟨(passes_keyword_iff kw u a).mpr hkw, (is_valid_iff u).mpr hext⟩, ?_⟩
      rw [Bool.not_eq_true', hlg, hic]
      rfl
  · intro kw u a h
    simp only [passesFilters, h]
    simp
  · intro kw a
    have hv : is_valid_image_url "https://site.com/art.svg" = false := by decide
    simp only [passesFilters, hv]
    simp

/-- Witness for C5 at concrete inputs: the iff applied to an accepted
candidate, the logo rejection applied to a URL containing "logo", and
the extension rejection applied to an `.svg` URL whose keyword and
logo/icon stages would pass. -/
theorem filter_reference_definition_witness :
    shouldPursueSpec (some "cat") "https://a.com/cat.jpg" "" ∧
    passesFilters (some "x") "https://a.com/xlogo.png" "y" = false ∧
    passesFilters (some "art") "https://site.com/art.svg" "art" = false :=
  ⟨(filter_reference_definition.1 (some "cat") "https://a.com/cat.jpg" "").mp (by decide),
   filter_reference_definition.2.1 (some "x") "https://a.com/xlogo.png" "y" (by decide),
   filter_reference_definition.2.2.2.1 (some "art") "art"⟩

/-- C3: per-page cap — `crawl` returns at most `max_images` records;
once the count of successful acquisitions reaches the cap the loop
stops dead (remaining candidates are not processed); and a filtered-out
or failed candidate leaves the loop's results, count, filesystem and
sleeps exactly as if the candidate were absent (only the fetch counter
may advance) — failures do not count against the cap and crawling
continues past them. -/
theorem crawl_per_page_cap :
    (∀ (page : String → Option PageFetch) (net : String → Option FetchResult)
       (decode : List Nat → Option (Nat × Nat)) (dir : String) (fs₀ : List String)
       (surl : String) (m : Int) (kw : Option String),
      (crawl page net decode dir fs₀ surl m kw).results.length ≤ m.toNat) ∧
    (∀ (net : String → Option FetchResult) (decode : List Nat → Option (Nat × Nat))
       (dir surl : String) (m : Int) (kw : Option String) (t : ImgTag)
       (rest : List ImgTag) (s : CrawlState), (s.count : Int) ≥ m →
      crawlLoop net decode dir surl m kw (t :: rest) s = s) ∧
    (∀ (net : String → Option FetchResult) (decode : List Nat → Option (Nat × Nat))
       (dir surl : String) (m : Int) (kw : Option String) (t : ImgTag)
       (rest : List ImgTag) (s : CrawlState), ¬ (s.count : Int) ≥ m →
      (candidateOf surl t = none ∨
       ∃ u a, candidateOf surl t = some (u, a) ∧
         (passesFilters kw u a = false ∨
          (download_image net decode dir s.fs u surl).record = none)) →
      ∃ n, crawlLoop net decode dir surl m kw (t :: rest) s =
        crawlLoop net decode dir surl m kw rest { s with fetches := s.fetches + n }) := by
  refine ⟨?_, ?_, ?_⟩
  · intro page net decode dir fs₀ surl m kw
    unfold crawl
    rcases hf : fetch_page page surl with _ | tags
    · simp
    · simp only
      obtain ⟨i1, _, i3, _⟩ := crawlLoop_invariants net decode dir surl m kw tags
        { results := [], count := 0, fs := fs₀, fetches := 0, sleeps := 0 }
      simp only [List.length_nil] at i1
      have hc := i3 (Nat.zero_le _)
      omega
  · intro net decode dir surl m kw t rest s hm
    exact crawlLoop_stop net decode dir surl m kw t rest s hm
  · intro net decode dir surl m kw t rest s hm hfail
    rcases hfail with hc | ⟨u, a, hc, hp | hd⟩
    · exact ⟨0, crawlLoop_skip_nosrc net decode dir surl m kw t rest s hm hc⟩
    · exact ⟨0, crawlLoop_skip_filtered net decode dir surl m kw t rest s u a hm hc hp⟩
    · rcases hb : passesFilters kw u a with _ | _
      · exact ⟨0, crawlLoop_skip_filtered net decode dir surl m kw t rest s u a hm hc hb⟩
      · refine ⟨1, ?_⟩
        have hinv := download_image_none_inv net decode dir s.fs u surl hd
        rw [crawlLoop_skip_failed net decode dir surl m kw t rest s u a hm hc hb hd, hinv]

/-- Witness for C3 at concrete inputs: a three-candidate page with cap
2, a loop state already at count 3 ≥ 2, and a logo-filtered candidate
that is skipped without consuming the cap. -/
theorem crawl_per_page_cap_witness :
    (crawl (pageWith [tagA, tagB, tagC]) goodNet okDecode "downloads/images" []
      "http://site.com/" 2 none).results.length ≤ (2 : Int).toNat ∧
    crawlLoop goodNet okDecode "downloads/images" "http://site.com/" 2 none [tagA]
      { results := [], count := 3, fs := [], fetches := 0, sleeps := 0 } =
      { results := [], count := 3, fs := [], fetches := 0, sleeps := 0 } ∧
    (∃ n, crawlLoop goodNet okDecode "downloads/images" "http://site.com/" 2 none
        [tagLogo] { results := [], count := 0, fs := [], fetches := 0, sleeps := 0 } =
      crawlLoop goodNet okDecode "downloads/images" "http://site.com/" 2 none []
        { results := [], count := 0, fs := [], fetches := 0 + n, sleeps := 0 }) :=
  ⟨crawl_per_page_cap.1 (pageWith [tagA, tagB, tagC]) goodNet okDecode "downloads/images"
      [] "http://site.com/" 2 none,
   crawl_per_page_cap.2.1 goodNet okDecode "downloads/images" "http://site.com/" 2 none
      tagA [] { results := [], count := 3, fs := [], fetches := 0, sleeps := 0 }
      (by decide),
   crawl_per_page_cap.2.2 goodNet okDecode "downloads/images" "http://site.com/" 2 none
      tagLogo [] { results := [], count := 0, fs := [], fetches := 0, sleeps := 0 }
      (by decide)
      (Or.inr ⟨"http://site.com/logo-header.png", "", by decide, Or.inl (by decide)⟩)⟩

/-- Any failing image acquisition — transport error, non-200 status,
payload under 1024 bytes, or decode/verify failure — returns `none`,
leaves the filesystem unchanged and used one fetch attempt. -/
theorem download_image_failure (net : String → Option FetchResult)
    (decode : List Nat → Option (Nat × Nat)) (dir : String) (fs : List String)
    (url ref : String)
    (hcause : net url = none ∨
      ∃ r, net url = some r ∧
        (r.status ≠ 200 ∨ r.content.length < 1024 ∨ decode r.content = none))
    (hc : fs.contains (derivedPath dir url) = false) :
    download_image net decode dir fs url ref = { record := none, fs := fs, fetches := 1 } := by
  rcases hcause with hn | ⟨r, hn, hs | hl | hd⟩
  · exact download_image_transport_err net decode dir fs url ref hc hn
  · exact download_image_bad_status net decode dir fs url ref r hc hn hs
  · by_cases hs2 : r.status = 200
    · exact download_image_small net decode dir fs url ref r hc hn hs2 hl
    · exact download_image_bad_status net decode dir fs url ref r hc hn hs2
  · by_cases hs2 : r.status = 200
    · by_cases hl2 : r.content.length < 1024
      · exact download_image_small net decode dir fs url ref r hc hn hs2 hl2
      · exact download_image_bad_decode net decode dir fs url ref r hc hn hs2 hl2 hd
    · exact download_image_bad_status net decode dir fs url ref r hc hn hs2

/-- C8: failure isolation — a page-fetch transport error or a non-200
page status makes `crawl` return the empty sequence (with no image
fetches); a search failure makes `search_and_rank` return `[]`; any
single image failure — transport error, non-200 status, or a
validation failure (payload under 1024 bytes, undecodable image) —
makes `download_image` return `none` leaving the filesystem unchanged;
and such a failed candidate never aborts the page's loop — it
continues over the remaining candidates unchanged. -/
theorem failure_isolation :
    (∀ (page : String → Option PageFetch) (net : String → Option FetchResult)
       (decode : List Nat → Option (Nat × Nat)) (dir : String) (fs₀ : List String)
       (surl : String) (m : Int) (kw : Option String), page surl = none →
      crawl page net decode dir fs₀ surl m kw =
        { results := [], fs := fs₀, imageFetches := 0, sleeps := 0, pageFetches := 1 }) ∧
    (∀ (page : String → Option PageFetch) (net : String → Option FetchResult)
       (decode : List Nat → Option (Nat × Nat)) (dir : String) (fs₀ : List String)
       (surl : String) (m : Int) (kw : Option String) (r : PageFetch),
      page surl = some r → r.status ≠ 200 →
      crawl page net decode dir fs₀ surl m kw =
        { results := [], fs := fs₀, imageFetches := 0, sleeps := 0, pageFetches := 1 }) ∧
    (∀ (tldx : String → String × String)
       (search : String → Nat → Option (List RawResult)) (q : String) (n : Nat),
      search q n = none → search_and_rank tldx search q n = []) ∧
    (∀ (net : String → Option FetchResult) (decode : List Nat → Option (Nat × Nat))
       (dir : String) (fs : List String) (url ref : String),
      (net url = none ∨
        ∃ r, net url = some r ∧
          (r.status ≠ 200 ∨ r.content.length < 1024 ∨ decode r.content = none)) →
      fs.contains (derivedPath dir url) = false →
      download_image net decode dir fs url ref = { record := none, fs := fs, fetches := 1 }) ∧
    (∀ (net : String → Option FetchResult) (decode : List Nat → Option (Nat × Nat))
       (dir surl : String) (m : Int) (kw : Option String) (t : ImgTag)
       (rest : List ImgTag) (s : CrawlState) (u a : String), ¬ (s.count : Int) ≥ m →
      candidateOf surl t = some (u, a) → passesFilters kw u a = true →
      (net u = none ∨
        ∃ r, net u = some r ∧
          (r.status ≠ 200 ∨ r.content.length < 1024 ∨ decode r.content = none)) →
      s.fs.contains (derivedPath dir u) = false →
      crawlLoop net decode dir surl m kw (t :: rest) s =
        crawlLoop net decode dir surl m kw rest { s with fetches := s.fetches + 1 }) := by
  refine ⟨?_, ?_, ?_, ?_, ?_⟩
  · intro page net decode dir fs₀ surl m kw h
    simp [crawl, fetch_page, h]
  · intro page net decode dir fs₀ surl m kw r h hs
    simp [crawl, fetch_page, h, hs]
  · intro tldx search q n h
    simp [search_and_rank, h]
  · intro net decode dir fs url ref hcause hc
    exact download_image_failure net decode dir fs url ref hcause hc
  · intro net decode dir surl m kw t rest s u a hm hc hp hcause hfc
    have he := download_image_failure net decode dir s.fs u surl hcause hfc
    have hd : (download_image net decode dir s.fs u surl).record = none := by rw [he]
    rw [crawlLoop_skip_failed net decode dir surl m kw t rest s u a hm hc hp hd, he]

/-- Witness for C8 at concrete inputs: a dead page, a 404 page, a
failing search, a dead image host, a validation failure (500-byte
payload), and loops that continue past both a transport-failed and a
validation-failed candidate. -/
theorem failure_isolation_witness :
    crawl downPage goodNet okDecode "downloads/images" ["keep"] "http://site.com/" 5 none =
      { results := [], fs := ["keep"], imageFetches := 0, sleeps := 0, pageFetches := 1 } ∧
    crawl page404 goodNet okDecode "downloads/images" ["keep"] "http://site.com/" 5 none =
      { results := [], fs := ["keep"], imageFetches := 0, sleeps := 0, pageFetches := 1 } ∧
    search_and_rank tldxExample searchFailing "query" 10 = [] ∧
    download_image downNet okDecode "downloads/images" [] "http://site.com/a.jpg" "http://site.com/" =
      { record := none, fs := [], fetches := 1 } ∧
    download_image tinyNet okDecode "downloads/images" [] "http://site.com/a.jpg" "http://site.com/" =
      { record := none, fs := [], fetches := 1 } ∧
    crawlLoop downNet okDecode "downloads/images" "http://site.com/" 5 none [tagA]
      { results := [], count := 0, fs := [], fetches := 0, sleeps := 0 } =
      crawlLoop downNet okDecode "downloads/images" "http://site.com/" 5 none []
        { results := [], count := 0, fs := [], fetches := 0 + 1, sleeps := 0 } ∧
    crawlLoop tinyNet okDecode "downloads/images" "http://site.com/" 5 none [tagA]
      { results := [], count := 0, fs := [], fetches := 0, sleeps := 0 } =
      crawlLoop tinyNet okDecode "downloads/images" "http://site.com/" 5 none []
        { results := [], count := 0, fs := [], fetches := 0 + 1, sleeps := 0 } :=
  ⟨failure_isolation.1 downPage goodNet okDecode "downloads/images" ["keep"]
      "http://site.com/" 5 none rfl,
   failure_isolation.2.1 page404 goodNet okDecode "downloads/images" ["keep"]
      "http://site.com/" 5 none ⟨404, []⟩ rfl (by decide),
   failure_isolation.2.2.1 tldxExample searchFailing "query" 10 rfl,
   failure_isolation.2.2.2.1 downNet okDecode "downloads/images" []
      "http://site.com/a.jpg" "http://site.com/" (Or.inl rfl) (by decide),
   failure_isolation.2.2.2.1 tinyNet okDecode "downloads/images" []
      "http://site.com/a.jpg" "http://site.com/"
      (Or.inr ⟨⟨200, List.replicate 500 0⟩, rfl, Or.inr (Or.inl (by decide))⟩) (by decide),
   failure_isolation.2.2.2.2 downNet okDecode "downloads/images" "http://site.com/" 5 none
      tagA [] { results := [], count := 0, fs := [], fetches := 0, sleeps := 0 }
      "http://site.com/a.jpg" "" (by decide) (by decide) (by decide) (Or.inl rfl) (by decide),
   failure_isolation.2.2.2.2 tinyNet okDecode "downloads/images" "http://site.com/" 5 none
      tagA [] { results := [], count := 0, fs := [], fetches := 0, sleeps := 0 }
      "http://site.com/a.jpg" "" (by decide) (by decide) (by decide)
      (Or.inr ⟨⟨200, List.replicate 500 0⟩, rfl, Or.inr (Or.inl (by decide))⟩) (by decide)⟩

/-- C9: politeness delay placement — over a whole `crawl` run the
number of `time.sleep(0.3)` calls equals the number of returned
records (one delay per successful acquisition, so there is a delay
between any two successes); a successful candidate advances the sleep
counter by exactly one; and a filtered-out or failed candidate incurs
no delay (the sleep count continues exactly as if it were absent). -/
theorem politeness_delay_per_success :
    (∀ (page : String → Option PageFetch) (net : String → Option FetchResult)
       (decode : List Nat → Option (Nat × Nat)) (dir : String) (fs₀ : List String)
       (surl : String) (m : Int) (kw : Option String),
      (crawl page net decode dir fs₀ surl m kw).sleeps =
        (crawl page net decode dir fs₀ surl m kw).results.length) ∧
    (∀ (net : String → Option FetchResult) (decode : List Nat → Option (Nat × Nat))
       (dir surl : String) (m : Int) (kw : Option String) (t : ImgTag)
       (rest : List ImgTag) (s : CrawlState) (u a : String) (meta : DownloadRecord),
      ¬ (s.count : Int) ≥ m → candidateOf surl t = some (u, a) →
      passesFilters kw u a = true →
      (download_image net decode dir s.fs u surl).record = some meta →
      crawlLoop net decode dir surl m kw (t :: rest) s =
        crawlLoop net decode dir surl m kw rest
          { results := s.results ++ [{ meta with alt_text := some a }],
            count := s.count + 1, fs := (download_image net decode dir s.fs u surl).fs,
            fetches := s.fetches + (download_image net decode dir s.fs u surl).fetches,
            sleeps := s.sleeps + 1 }) ∧
    (∀ (net : String → Option FetchResult) (decode : List Nat → Option (Nat × Nat))
       (dir surl : String) (m : Int) (kw : Option String) (t : ImgTag)
       (rest : List ImgTag) (s : CrawlState), ¬ (s.count : Int) ≥ m →
      (candidateOf surl t = none ∨
       ∃ u a, candidateOf surl t = some (u, a) ∧
         (passesFilters kw u a = false ∨
          (download_image net decode dir s.fs u surl).record = none)) →
      ∃ n, (crawlLoop net decode dir surl m kw (t :: rest) s).sleeps =
        (crawlLoop net decode dir surl m kw rest { s with fetches := s.fetches + n }).sleeps) := by
  refine ⟨?_, ?_, ?_⟩
  · intro page net decode dir fs₀ surl m kw
    unfold crawl
    rcases hf : fetch_page page surl with _ | tags
    · simp
    · simp only
      obtain ⟨_, i2, _, _⟩ := crawlLoop_invariants net decode dir surl m kw tags
        { results := [], count := 0, fs := fs₀, fetches := 0, sleeps := 0 }
      simp only [List.length_nil] at i2
      omega
  · intro net decode dir surl m kw t rest s u a meta hm hc hp hd
    exact crawlLoop_step_success net decode dir surl m kw t rest s u a meta hm hc hp hd
  · intro net decode dir surl m kw t rest s hm hfail
    rcases hfail with hc | ⟨u, a, hc, hp | hd⟩
    · exact ⟨0, by rw [crawlLoop_skip_nosrc net decode dir surl m kw t rest s hm hc]; rfl⟩
    · exact ⟨0, by rw [crawlLoop_skip_filtered net decode dir surl m kw t rest s u a hm hc hp]; rfl⟩
    · rcases hb : passesFilters kw u a with _ | _
      · exact ⟨0, by rw [crawlLoop_skip_filtered net decode dir surl m kw t rest s u a hm hc hb]; rfl⟩
      · refine ⟨1, ?_⟩
        have hinv := download_image_none_inv net decode dir s.fs u surl hd
        rw [crawlLoop_skip_failed net decode dir surl m kw t rest s u a hm hc hb hd, hinv]

/-- Witness for C9 at concrete inputs: a page whose three candidates
all succeed sleeps once per record, a concrete successful step bumps
the sleep counter once, and the logo-filtered candidate sleeps not at
all. -/
theorem politeness_delay_per_success_witness :
    (crawl (pageWith [tagA, tagB, tagLogo]) goodNet okDecode "downloads/images" []
      "http://site.com/" 5 none).sleeps =
      (crawl (pageWith [tagA, tagB, tagLogo]) goodNet okDecode "downloads/images" []
        "http://site.com/" 5 none).results.length ∧
    crawlLoop goodNet okDecode "downloads/images" "http://site.com/" 5 none [tagA] s0 =
      crawlLoop goodNet okDecode "downloads/images" "http://site.com/" 5 none []
        { results := s0.results ++ [{ metaA with alt_text := some "" }],
          count := s0.count + 1,
          fs := (download_image goodNet okDecode "downloads/images" s0.fs
            "http://site.com/a.jpg" "http://site.com/").fs,
          fetches := s0.fetches + (download_image goodNet okDecode "downloads/images" s0.fs
            "http://site.com/a.jpg" "http://site.com/").fetches,
          sleeps := s0.sleeps + 1 } ∧
    (∃ n, (crawlLoop goodNet okDecode "downloads/images" "http://site.com/" 5 none
        [tagLogo] { results := [], count := 0, fs := [], fetches := 0, sleeps := 0 }).sleeps =
      (crawlLoop goodNet okDecode "downloads/images" "http://site.com/" 5 none []
        { results := [], count := 0, fs := [], fetches := 0 + n, sleeps := 0 }).sleeps) :=
  ⟨politeness_delay_per_success.1 (pageWith [tagA, tagB, tagLogo]) goodNet okDecode
      "downloads/images" [] "http://site.com/" 5 none,
   politeness_delay_per_success.2.1 goodNet okDecode "downloads/images" "http://site.com/"
      5 none tagA [] s0 "http://site.com/a.jpg" "" metaA
      (by decide) (by decide) (by decide)
      (by
        rw [download_image_success goodNet okDecode "downloads/images" s0.fs
          "http://site.com/a.jpg" "http://site.com/" ⟨200, List.replicate 2048 7⟩ 640 480
          (by decide) rfl rfl (by simp) rfl]
        decide),
   politeness_delay_per_success.2.2 goodNet okDecode "downloads/images" "http://site.com/"
      5 none tagLogo [] { results := [], count := 0, fs := [], fetches := 0, sleeps := 0 }
      (by decide)
      (Or.inr ⟨"http://site.com/logo-header.png", "", by decide, Or.inl (by decide)⟩)⟩

/-- C10: a `crawl` call with `max_images ≤ 0` returns the empty
sequence, attempts no image download and no delay, and leaves the
filesystem unchanged — while the page itself is still fetched once
before the cap check stops the loop. -/
theorem crawl_nonpositive_cap
    (page : String → Option PageFetch) (net : String → Option FetchResult)
    (decode : List Nat → Option (Nat × Nat)) (dir : String) (fs₀ : List String)
    (surl : String) (kw : Option String) (m : Int) (hm : m ≤ 0) :
    (crawl page net decode dir fs₀ surl m kw).results = [] ∧
    (crawl page net decode dir fs₀ surl m kw).imageFetches = 0 ∧
    (crawl page net decode dir fs₀ surl m kw).sleeps = 0 ∧
    (crawl page net decode dir fs₀ surl m kw).fs = fs₀ ∧
    (crawl page net decode dir fs₀ surl m kw).pageFetches = 1 := by
  unfold crawl
  rcases hf : fetch_page page surl with _ | tags
  · exact ⟨rfl, rfl, rfl, rfl, rfl⟩
  · simp only
    rcases tags with _ | ⟨t, rest⟩
    · simp [crawlLoop]
    · rw [crawlLoop_stop net decode dir surl m kw t rest
        { results := [], count := 0, fs := fs₀, fetches := 0, sleeps := 0 }
        (by simpa using hm)]
      simp

/-- Witness for C10 at a concrete input: cap 0 on a page with three
candidates fetches the page, downloads nothing, sleeps never. -/
theorem crawl_nonpositive_cap_witness :
    (crawl (pageWith [tagA, tagB, tagC]) goodNet okDecode "downloads/images" ["keep"]
      "http://site.com/" 0 none).results = [] ∧
    (crawl (pageWith [tagA, tagB, tagC]) goodNet okDecode "downloads/images" ["keep"]
      "http://site.com/" 0 none).imageFetches = 0 ∧
    (crawl (pageWith [tagA, tagB, tagC]) goodNet okDecode "downloads/images" ["keep"]
      "http://site.com/" 0 none).sleeps = 0 ∧
    (crawl (pageWith [tagA, tagB, tagC]) goodNet okDecode "downloads/images" ["keep"]
      "http://site.com/" 0 none).fs = ["keep"] ∧
    (crawl (pageWith [tagA, tagB, tagC]) goodNet okDecode "downloads/images" ["keep"]
      "http://site.com/" 0 none).pageFetches = 1 :=
  crawl_nonpositive_cap (pageWith [tagA, tagB, tagC]) goodNet okDecode "downloads/images"
    ["keep"] "http://site.com/" none 0 (by decide)
